import Mathlib

/-
Formal model of the Matrix voice assistant's command-interpretation core,
embedded shallowly from the Python sources:

  * utils/helpers.py        (clean_query)
  * core/command_processor.py (CommandProcessor: _register_commands,
                               process, _match_command, _extract_param)
  * core/listener.py        (Listener: detect_wake_word, _exact_match,
                               _fuzzy_match, _handle_detection, _extract_command)
  * core/brain.py           (Matrix: handle_commands, _check_exit_commands)

Python strings are modelled as lists of characters (`Str`).  The fuzzy
similarity function `difflib.SequenceMatcher(None, a, b).ratio()` is an
external library routine; it is modelled as an arbitrary parameter
`ratio : Str → Str → ℚ`, so every theorem below holds for any similarity
function, in particular for the real one.  Action handlers (skills) are
external side-effecting collaborators; a handler is modelled by its
observable outcome: normal return (`Except.ok`) or a raised exception
(`Except.error`).
-/

/-- Python `str`, modelled as its sequence of characters. -/
abbrev Str := List Char

/-- Conversion from Lean string literals to the model type. -/
def str (s : String) : Str := s.data

/-- Python `str.lower` on a single character (ASCII, matching
`Char.toLower`'s basic-latin behaviour). -/
def lowerChar (c : Char) : Char :=
  if 'A' ≤ c ∧ c ≤ 'Z' then Char.ofNat (c.toNat + 32) else c

/-- Python `str.lower`. -/
def lowerL (l : Str) : Str := l.map lowerChar

/-- Python `str.strip`: drop leading and trailing whitespace. -/
def stripL (l : Str) : Str :=
  ((l.dropWhile Char.isWhitespace).reverse.dropWhile Char.isWhitespace).reverse

/-- Python `p in t` substring test. -/
def containsSub (t p : Str) : Bool :=
  match t with
  | [] => p.isEmpty
  | _ :: rest => p.isPrefixOf t || containsSub rest p

/-- Python `t.find(p)`: index of the first occurrence of `p` in `t`
(`none` models `-1`). -/
def findSubstr (t p : Str) : Option Nat :=
  match t with
  | [] => if p.isEmpty then some 0 else none
  | _ :: rest => if p.isPrefixOf t then some 0 else (findSubstr rest p).map (· + 1)

/-- Python `str.split()` with no separator: split on whitespace runs,
discarding empty pieces. -/
def splitWords (l : Str) : List Str :=
  (l.splitOnP Char.isWhitespace).filter (fun w => !w.isEmpty)

/-- Python `" ".join(ws)`. -/
def joinSpace (ws : List Str) : Str := List.intercalate [' '] ws

/-- `utils/helpers.py::clean_query`: `query.strip().lower()` for a present
string, `None` for an absent one.  The Python `try/except` wrapper makes the
function total; the model is total by construction. -/
def cleanQuery (query : Option Str) : Option Str :=
  match query with
  | some s => some (lowerL (stripL s))
  | none => none

/-! ## Command processor (core/command_processor.py) -/

/-- Observable outcome of invoking an external handler: normal return or a
raised exception. -/
abbrev HandlerResult := Except Unit Unit

/-- A registered handler; it receives the lowered command text exactly when
the command's `requires_params` flag is set (`some`), and no argument
otherwise (`none`). -/
abbrev HandlerFn := Option Str → HandlerResult

/-- `command_processor.py::Command` dataclass. -/
structure Command where
  patterns : List Str
  handler : HandlerFn
  description : Str
  category : Str
  requiresParams : Bool := false

/-- `_match_command`'s minimum-similarity threshold, `0.6`. -/
def threshold : ℚ := 6 / 10

/-- Inner loop of `_match_command` over one command's patterns.
`Except.error cmd` models Python's early `return command` on an exact
substring hit; `Except.ok` carries the updated `(best_score, best_match)`
accumulator. -/
def scanPatterns (ratio : Str → Str → ℚ) (commandText : Str) (cmd : Command) :
    List Str → ℚ → Option Command → Except Command (ℚ × Option Command)
  | [], bestScore, bestMatch => .ok (bestScore, bestMatch)
  | pat :: rest, bestScore, bestMatch =>
    if containsSub commandText pat then .error cmd
    else
      let score := ratio commandText pat
      if bestScore < score ∧ threshold ≤ score then
        scanPatterns ratio commandText cmd rest score (some cmd)
      else
        scanPatterns ratio commandText cmd rest bestScore bestMatch

/-- Outer loop of `_match_command` over all registered commands. -/
def scanCommands (ratio : Str → Str → ℚ) (commandText : Str) :
    List Command → ℚ → Option Command → Option Command
  | [], _, bestMatch => bestMatch
  | cmd :: rest, bestScore, bestMatch =>
    match scanPatterns ratio commandText cmd cmd.patterns bestScore bestMatch with
    | .error exact => some exact
    | .ok (s, m) => scanCommands ratio commandText rest s m

/-- `command_processor.py::CommandProcessor._match_command`. -/
def matchCommand (ratio : Str → Str → ℚ) (commands : List Command)
    (commandText : Str) : Option Command :=
  scanCommands ratio commandText commands 0 none

/-- The first command, in registration/iteration order, owning a pattern that
occurs as a substring of the text (the command `_match_command` early-returns
on). -/
def firstExact (commandText : Str) : List Command → Option Command
  | [] => none
  | cmd :: rest =>
    if cmd.patterns.any (fun p => containsSub commandText p) then some cmd
    else firstExact commandText rest

/-- One entry of `CommandProcessor.command_history`. -/
structure HistoryEntry where
  command : Str
  category : Str
  success : Bool

/-- `CommandProcessor.stats`. -/
structure Stats where
  totalProcessed : Nat
  successful : Nat
  failed : Nat
  byCategory : List (Str × Nat)

/-- The mutable fields of `CommandProcessor` touched by `process`. -/
structure ProcessorState where
  stats : Stats
  commandHistory : List HistoryEntry
  lastCommand : Option Command

/-- `CommandProcessor.__init__`'s statistics/history fields. -/
def initialProcessorState : ProcessorState :=
  { stats := { totalProcessed := 0, successful := 0, failed := 0, byCategory := [] },
    commandHistory := [],
    lastCommand := none }

/-- `self.stats['by_category'][cat] = self.stats['by_category'].get(cat, 0) + 1`
on an insertion-ordered dict. -/
def bumpCategory : List (Str × Nat) → Str → List (Str × Nat)
  | [], key => [(key, 1)]
  | (k, v) :: rest, key =>
    if k = key then (k, v + 1) :: rest else (k, v) :: bumpCategory rest key

/-- `command_processor.py::CommandProcessor.process`.  Returns the `bool`
result together with the updated processor state. -/
def process (ratio : Str → Str → ℚ) (commands : List Command)
    (st : ProcessorState) (commandText : Str) : Bool × ProcessorState :=
  if commandText = [] then (false, st)
  else
    let stats1 : Stats := { st.stats with totalProcessed := st.stats.totalProcessed + 1 }
    let commandLower := stripL (lowerL commandText)
    match matchCommand ratio commands commandLower with
    | some cmd =>
      match cmd.handler (if cmd.requiresParams then some commandLower else none) with
      | .ok _ =>
        (true,
          { stats :=
              { stats1 with
                successful := stats1.successful + 1,
                byCategory := bumpCategory stats1.byCategory cmd.category },
            commandHistory :=
              st.commandHistory ++ [⟨commandText, cmd.category, true⟩],
            lastCommand := some cmd })
      | .error _ =>
        (false, { st with stats := { stats1 with failed := stats1.failed + 1 } })
    | none =>
      (false, { st with stats := { stats1 with failed := stats1.failed + 1 } })

/-- A finite sequence of `process` calls.  The command list (hence every
handler's behaviour) may differ arbitrarily from call to call, modelling
stateful handlers that may throw on some calls and succeed on others. -/
def processSeq (ratio : Str → Str → ℚ) :
    ProcessorState → List (List Command × Str) → ProcessorState
  | st, [] => st
  | st, (commands, text) :: rest => processSeq ratio (process ratio commands st text).2 rest

/-- `command_processor.py::CommandProcessor._extract_param` (the `param_type`
argument is unused in the source). -/
def extractParam (commandText : Str) (_paramType : Str) : Str :=
  stripL (joinSpace ((splitWords commandText).filter
    (fun w => !((List.map str ["matrix", "create", "make", "new", "delete", "remove",
                               "search", "find", "folder", "file", "for", "the", "a"]).contains
                 (lowerL w)))))

/-- Outcomes of the external skill functions referenced by
`_register_commands`.  Zero-argument skills are modelled by their outcome,
one-argument skills by an outcome depending on the passed text. -/
structure SkillHandlers where
  openChrome : HandlerResult
  openFirefox : HandlerResult
  openNotepad : HandlerResult
  openCalculator : HandlerResult
  openVscode : HandlerResult
  openSpotify : HandlerResult
  searchWeb : Str → HandlerResult
  openWebsite : Str → HandlerResult
  openGmail : HandlerResult
  searchYoutube : Str → HandlerResult
  openMaps : Str → HandlerResult
  playMusic : HandlerResult
  nextTrack : HandlerResult
  previousTrack : HandlerResult
  volumeUp : HandlerResult
  volumeDown : HandlerResult
  toggleMute : HandlerResult
  getBatteryStatus : HandlerResult
  getCpuUsage : HandlerResult
  getMemoryUsage : HandlerResult
  getDiskUsage : HandlerResult
  getFullStatus : HandlerResult
  shutdownPc : HandlerResult
  restartPc : HandlerResult
  sleepPc : HandlerResult
  lockScreen : HandlerResult
  createFolder : Str → HandlerResult
  deleteFile : Str → HandlerResult
  searchFiles : Str → HandlerResult
  sendWhatsappMessage : HandlerResult

/-- A zero-argument Python handler. -/
def zeroArg (r : HandlerResult) : HandlerFn := fun _ => r

/-- A one-argument Python handler (raises `TypeError` if called without the
argument — which `process` never does for a `requires_params` command). -/
def oneArg (f : Str → HandlerResult) : HandlerFn :=
  fun arg =>
    match arg with
    | some commandText => f commandText
    | none => .error ()

/-- `command_processor.py::CommandProcessor._register_commands`. -/
def registerCommands (hs : SkillHandlers) : List Command :=
  [ { patterns := List.map str ["open chrome", "launch chrome", "start chrome"],
      handler := zeroArg hs.openChrome,
      description := str "Open Google Chrome", category := str "apps" },
    { patterns := List.map str ["open firefox", "launch firefox"],
      handler := zeroArg hs.openFirefox,
      description := str "Open Firefox", category := str "apps" },
    { patterns := List.map str ["open notepad", "launch notepad"],
      handler := zeroArg hs.openNotepad,
      description := str "Open Notepad", category := str "apps" },
    { patterns := List.map str ["open calculator", "launch calculator", "calculator"],
      handler := zeroArg hs.openCalculator,
      description := str "Open Calculator", category := str "apps" },
    { patterns := List.map str ["open vscode", "open code", "launch vscode"],
      handler := zeroArg hs.openVscode,
      description := str "Open VS Code", category := str "apps" },
    { patterns := List.map str ["open spotify", "launch spotify", "start spotify"],
      handler := zeroArg hs.openSpotify,
      description := str "Open Spotify", category := str "apps" },
    { patterns := List.map str ["search for", "search", "google", "look up", "find"],
      handler := oneArg hs.searchWeb,
      description := str "Search the web", category := str "browser",
      requiresParams := true },
    { patterns := List.map str ["open youtube", "go to youtube"],
      handler := zeroArg (hs.openWebsite (str "youtube")),
      description := str "Open YouTube", category := str "browser" },
    { patterns := List.map str ["open gmail", "check email"],
      handler := zeroArg hs.openGmail,
      description := str "Open Gmail", category := str "browser" },
    { patterns := List.map str ["search youtube", "youtube search"],
      handler := oneArg hs.searchYoutube,
      description := str "Search YouTube", category := str "browser",
      requiresParams := true },
    { patterns := List.map str ["open maps", "show maps", "google maps"],
      handler := oneArg hs.openMaps,
      description := str "Open Google Maps", category := str "browser",
      requiresParams := true },
    { patterns := List.map str ["play music", "pause music", "play pause", "toggle music"],
      handler := zeroArg hs.playMusic,
      description := str "Play/Pause music", category := str "media" },
    { patterns := List.map str ["next track", "next song", "skip"],
      handler := zeroArg hs.nextTrack,
      description := str "Next track", category := str "media" },
    { patterns := List.map str ["previous track", "previous song", "back"],
      handler := zeroArg hs.previousTrack,
      description := str "Previous track", category := str "media" },
    { patterns := List.map str ["volume up", "increase volume", "louder"],
      handler := zeroArg hs.volumeUp,
      description := str "Increase volume", category := str "media" },
    { patterns := List.map str ["volume down", "decrease volume", "quieter"],
      handler := zeroArg hs.volumeDown,
      description := str "Decrease volume", category := str "media" },
    { patterns := List.map str ["mute", "unmute", "toggle mute"],
      handler := zeroArg hs.toggleMute,
      description := str "Toggle mute", category := str "media" },
    { patterns := List.map str ["battery status", "battery level", "how much battery"],
      handler := zeroArg hs.getBatteryStatus,
      description := str "Get battery status", category := str "system" },
    { patterns := List.map str ["cpu usage", "processor usage", "cpu status"],
      handler := zeroArg hs.getCpuUsage,
      description := str "Get CPU usage", category := str "system" },
    { patterns := List.map str ["memory usage", "ram usage", "memory status"],
      handler := zeroArg hs.getMemoryUsage,
      description := str "Get memory usage", category := str "system" },
    { patterns := List.map str ["disk space", "storage space", "disk usage"],
      handler := zeroArg hs.getDiskUsage,
      description := str "Get disk usage", category := str "system" },
    { patterns := List.map str ["system status", "full status", "system info"],
      handler := zeroArg hs.getFullStatus,
      description := str "Get full system status", category := str "system" },
    { patterns := List.map str ["shutdown", "shut down", "power off"],
      handler := zeroArg hs.shutdownPc,
      description := str "Shutdown PC", category := str "power" },
    { patterns := List.map str ["restart", "reboot"],
      handler := zeroArg hs.restartPc,
      description := str "Restart PC", category := str "power" },
    { patterns := List.map str ["sleep", "go to sleep"],
      handler := zeroArg hs.sleepPc,
      description := str "Put PC to sleep", category := str "power" },
    { patterns := List.map str ["lock screen", "lock"],
      handler := zeroArg hs.lockScreen,
      description := str "Lock screen", category := str "power" },
    { patterns := List.map str ["create folder", "make folder", "new folder"],
      handler := oneArg (fun cmd => hs.createFolder (extractParam cmd (str "folder"))),
      description := str "Create a folder", category := str "files",
      requiresParams := true },
    { patterns := List.map str ["delete file", "remove file"],
      handler := oneArg (fun cmd => hs.deleteFile (extractParam cmd (str "file"))),
      description := str "Delete a file", category := str "files",
      requiresParams := true },
    { patterns := List.map str ["search files", "find files"],
      handler := oneArg (fun cmd => hs.searchFiles (extractParam cmd (str "search"))),
      description := str "Search for files", category := str "files",
      requiresParams := true },
    { patterns := List.map str ["send message", "send whatsapp", "whatsapp message"],
      handler := zeroArg hs.sendWhatsappMessage,
      description := str "Send WhatsApp message", category := str "communication" } ]

/-! ## Wake-word listener (core/listener.py) -/

/-- The fields of `listener.py::WakeWordConfig` consulted by
`detect_wake_word` (the wake phrases themselves are passed separately,
already lower-cased as in `Listener.__init__`). -/
structure WakeConfig where
  sensitivity : ℚ
  useFuzzyMatching : Bool

/-- The mutable fields of `Listener` touched by wake-word detection. -/
structure ListenerState where
  lastDetectionTime : ℚ
  wakeWordDetections : Nat
  falsePositives : Nat
  totalPhrasesHeard : Nat
  averageConfidence : ℚ
deriving DecidableEq

/-- `Listener.__init__`'s state (`last_detection_time = 0`, zeroed stats). -/
def initialListenerState : ListenerState :=
  { lastDetectionTime := 0, wakeWordDetections := 0, falsePositives := 0,
    totalPhrasesHeard := 0, averageConfidence := 0 }

/-- `listener.py::Listener._exact_match`: primary wake word first, then the
alternatives, each as a substring test. -/
def exactMatch (wakeWord : Str) (altWords : List Str) (text : Str) : Bool :=
  containsSub text wakeWord || altWords.any (fun alt => containsSub text alt)

/-- The body of `_fuzzy_match`'s loop for one candidate wake word: whole-text
ratio, a floor of 0.9 on a substring hit, and ratios against every
contiguous word window of the text with the wake word's word count. -/
def fuzzyOne (ratio : Str → Str → ℚ) (text wakeWord : Str) (acc : ℚ) : ℚ :=
  let acc1 := max acc (ratio text wakeWord)
  let acc2 := if containsSub text wakeWord then max acc1 (9 / 10) else acc1
  let textWords := splitWords text
  let wakeWords := splitWords wakeWord
  if wakeWords.length ≤ textWords.length then
    (List.range (textWords.length - wakeWords.length + 1)).foldl
      (fun a i => max a (ratio (joinSpace ((textWords.drop i).take wakeWords.length)) wakeWord))
      acc2
  else acc2

/-- `listener.py::Listener._fuzzy_match`. -/
def fuzzyMatch (ratio : Str → Str → ℚ) (wakeWord : Str) (altWords : List Str)
    (text : Str) : ℚ :=
  (wakeWord :: altWords).foldl (fun a w => fuzzyOne ratio text w a) 0

/-- `listener.py::Listener._handle_detection` at an explicit current time.
The wake-word callback is external (and its exceptions are swallowed by the
source), so it does not appear in the state. -/
def handleDetection (st : ListenerState) (currentTime confidence : ℚ) :
    Bool × ListenerState :=
  if currentTime - st.lastDetectionTime < 2 then (false, st)
  else
    let detections := st.wakeWordDetections + 1
    let total := st.averageConfidence * ((detections : ℚ) - 1)
    (true,
      { st with
        lastDetectionTime := currentTime,
        wakeWordDetections := detections,
        averageConfidence := (total + confidence) / (detections : ℚ) })

/-- `listener.py::Listener.detect_wake_word` at an explicit current time. -/
def detectWakeWord (ratio : Str → Str → ℚ) (cfg : WakeConfig)
    (wakeWord : Str) (altWords : List Str) (st : ListenerState)
    (currentTime : ℚ) (text : Str) : Bool × ListenerState :=
  if text = [] then (false, st)
  else
    let textLower := stripL (lowerL text)
    let st1 := { st with totalPhrasesHeard := st.totalPhrasesHeard + 1 }
    if exactMatch wakeWord altWords textLower then
      handleDetection st1 currentTime 1
    else if cfg.useFuzzyMatching then
      let confidence := fuzzyMatch ratio wakeWord altWords textLower
      if cfg.sensitivity ≤ confidence then handleDetection st1 currentTime confidence
      else (false, st1)
    else (false, st1)

/-- Whether a detection attempt on `text` passes the match logic of
`detect_wake_word` (steps 2/3), i.e. would reach `_handle_detection`. -/
def wouldMatch (ratio : Str → Str → ℚ) (cfg : WakeConfig)
    (wakeWord : Str) (altWords : List Str) (text : Str) : Bool :=
  !(text = []) &&
    (exactMatch wakeWord altWords (stripL (lowerL text)) ||
      (cfg.useFuzzyMatching &&
        decide (cfg.sensitivity ≤ fuzzyMatch ratio wakeWord altWords (stripL (lowerL text)))))

/-- Loop of `listener.py::Listener._extract_command` over the wake phrases:
for the first phrase occurring in the lower-cased text whose after-phrase
remainder is non-empty once trimmed, return that remainder; otherwise fall
through to the trimmed original text. -/
def extractLoop (text textLower : Str) : List Str → Str
  | [] => stripL text
  | w :: rest =>
    match findSubstr textLower w with
    | some pos =>
      let command := stripL (text.drop (pos + w.length))
      if command = [] then extractLoop text textLower rest else command
    | none => extractLoop text textLower rest

/-- `listener.py::Listener._extract_command`. -/
def extractCommand (wakeWord : Str) (altWords : List Str) (text : Str) : Str :=
  extractLoop text (lowerL text) (wakeWord :: altWords)

/-- The default alternative wake words from `WakeWordConfig.__post_init__`. -/
def defaultAltWords : List Str :=
  List.map str ["matrix", "hey matrix", "ok matrix", "hi matrix"]

/-! ## Session state machine (core/brain.py) -/

/-- `brain.py::AssistantState`. -/
inductive AssistantState where
  | idle
  | listening
  | processing
  | speaking
  | wakeWordDetection
  | error
deriving DecidableEq

/-- The fields of `brain.py::Matrix` touched by one `handle_commands`
iteration. -/
structure SessionState where
  state : AssistantState
  active : Bool
  commandsProcessed : Nat
  proc : ProcessorState

/-- The `exit_keywords` list of `brain.py::Matrix._check_exit_commands`. -/
def exitKeywords : List Str :=
  List.map str ["goodbye", "sleep", "standby", "deactivate", "stop listening"]

/-- `brain.py::Matrix._check_exit_commands`: true iff some exit keyword is a
substring of the lower-cased utterance. -/
def checkExitCommands (command : Str) : Bool :=
  exitKeywords.any (fun keyword => containsSub (lowerL command) keyword)

/-- One iteration of the `brain.py::Matrix.handle_commands` loop body for a
non-empty utterance received while active (no inactivity timeout).  The first
component records whether the command processor (`process`) was invoked for
this utterance. -/
def handleCommandsStep (ratio : Str → Str → ℚ) (commands : List Command)
    (ss : SessionState) (command : Str) : Bool × SessionState :=
  if checkExitCommands command then
    (false, { ss with active := false, state := .idle })
  else
    let ss1 := { ss with state := .processing }
    let result := process ratio commands ss1.proc command
    let ss2 := { ss1 with proc := result.2 }
    let ss3 :=
      if result.1 then { ss2 with commandsProcessed := ss2.commandsProcessed + 1 }
      else ss2
    (true, { ss3 with state := .listening })

/-! ## Concrete instantiations used by the witnesses -/

/-- Skill handlers that all succeed. -/
def trivialSkills : SkillHandlers :=
  { openChrome := .ok (), openFirefox := .ok (), openNotepad := .ok (),
    openCalculator := .ok (), openVscode := .ok (), openSpotify := .ok (),
    searchWeb := fun _ => .ok (), openWebsite := fun _ => .ok (),
    openGmail := .ok (), searchYoutube := fun _ => .ok (),
    openMaps := fun _ => .ok (), playMusic := .ok (), nextTrack := .ok (),
    previousTrack := .ok (), volumeUp := .ok (), volumeDown := .ok (),
    toggleMute := .ok (), getBatteryStatus := .ok (), getCpuUsage := .ok (),
    getMemoryUsage := .ok (), getDiskUsage := .ok (), getFullStatus := .ok (),
    shutdownPc := .ok (), restartPc := .ok (), sleepPc := .ok (),
    lockScreen := .ok (), createFolder := fun _ => .ok (),
    deleteFile := fun _ => .ok (), searchFiles := fun _ => .ok (),
    sendWhatsappMessage := .ok () }

/-- A similarity function that scores everything 0. -/
def ratioZero : Str → Str → ℚ := fun _ _ => 0

/-- A similarity function that scores everything 1 (every fuzzy comparison
maximal). -/
def ratioOne : Str → Str → ℚ := fun _ _ => 1

/-- A similarity function that scores everything 1/2 (below the 0.6
threshold). -/
def ratioHalf : Str → Str → ℚ := fun _ _ => 1 / 2

/-- The first registered command ("open chrome"), with all-succeeding
handlers. -/
def chromeCommand : Command :=
  { patterns := List.map str ["open chrome", "launch chrome", "start chrome"],
    handler := zeroArg trivialSkills.openChrome,
    description := str "Open Google Chrome", category := str "apps" }

/-- An "open chrome" command whose handler always raises. -/
def throwingChromeCommand : Command :=
  { patterns := List.map str ["open chrome", "launch chrome", "start chrome"],
    handler := fun _ => .error (),
    description := str "Open Google Chrome", category := str "apps" }

/-- A "volume up" command whose handler always raises. -/
def throwingVolumeCommand : Command :=
  { patterns := List.map str ["volume up", "increase volume", "louder"],
    handler := fun _ => .error (),
    description := str "Increase volume", category := str "media" }

/-- The default wake configuration (`sensitivity = 0.75`, fuzzy matching
on). -/
def defaultWakeConfig : WakeConfig := { sensitivity := 3 / 4, useFuzzyMatching := true }

/-! ## Helper lemmas -/

theorem toNat_ofNat_valid (n : Nat) (h : n.isValidChar) : (Char.ofNat n).toNat = n := by
  rw [Char.ofNat, dif_pos h]
  rfl

theorem char_le_toNat {a b : Char} : a ≤ b ↔ a.toNat ≤ b.toNat := Iff.rfl

theorem char_eq_iff_toNat {a b : Char} : a = b ↔ a.toNat = b.toNat :=
  ⟨fun h => congrArg Char.toNat h, fun h => Char.ext (UInt32.toNat.inj h)⟩

theorem lowerChar_toNat (c : Char) :
    (lowerChar c).toNat = if 65 ≤ c.toNat ∧ c.toNat ≤ 90 then c.toNat + 32 else c.toNat := by
  unfold lowerChar
  by_cases h : 'A' ≤ c ∧ c ≤ 'Z'
  · rw [if_pos h]
    have h1 : 65 ≤ c.toNat := char_le_toNat.mp h.1
    have h2 : c.toNat ≤ 90 := char_le_toNat.mp h.2
    rw [if_pos ⟨h1, h2⟩]
    exact toNat_ofNat_valid _ (Or.inl (by omega))
  · rw [if_neg h, if_neg]
    intro hc
    exact h ⟨char_le_toNat.mpr hc.1, char_le_toNat.mpr hc.2⟩

theorem lowerChar_idem (c : Char) : lowerChar (lowerChar c) = lowerChar c := by
  rw [char_eq_iff_toNat, lowerChar_toNat (lowerChar c), lowerChar_toNat c]
  by_cases hc : 65 ≤ c.toNat ∧ c.toNat ≤ 90
  · rw [if_pos hc, if_neg (by omega)]
  · rw [if_neg hc, if_neg hc]

theorem char_isWhitespace_iff (c : Char) :
    c.isWhitespace = true ↔ c.toNat = 32 ∨ c.toNat = 9 ∨ c.toNat = 13 ∨ c.toNat = 10 := by
  simp only [Char.isWhitespace, Bool.or_eq_true, decide_eq_true_eq, char_eq_iff_toNat]
  constructor
  · rintro (((h | h) | h) | h) <;> simp_all
  · rintro (h | h | h | h) <;> simp_all

theorem lowerChar_isWhitespace (c : Char) :
    (lowerChar c).isWhitespace = c.isWhitespace := by
  rw [Bool.eq_iff_iff, char_isWhitespace_iff, char_isWhitespace_iff, lowerChar_toNat]
  by_cases hc : 65 ≤ c.toNat ∧ c.toNat ≤ 90
  · rw [if_pos hc]
    omega
  · rw [if_neg hc]

theorem dropWhile_self (p : α → Bool) (l : List α) :
    List.dropWhile p (List.dropWhile p l) = List.dropWhile p l := by
  induction l with
  | nil => rfl
  | cons a t ih =>
    by_cases h : p a
    · simp [List.dropWhile, h, ih]
    · simp [List.dropWhile, h]

theorem dropWhile_map (f : α → α) (p : α → Bool) (h : ∀ c, p (f c) = p c) (l : List α) :
    List.dropWhile p (l.map f) = (List.dropWhile p l).map f := by
  induction l with
  | nil => rfl
  | cons a t ih =>
    by_cases ha : p a
    · simp [List.dropWhile, h, ha, ih]
    · simp [List.dropWhile, h, ha]

theorem dropWhile_append_last (p : α → Bool) (xs : List α) (a : α) (h : p a = false) :
    List.dropWhile p (xs ++ [a]) = List.dropWhile p xs ++ [a] := by
  induction xs with
  | nil => simp [List.dropWhile, h]
  | cons x t ih =>
    by_cases hx : p x
    · simp [List.dropWhile, hx, ih]
    · simp [List.dropWhile, hx]

theorem dropWhile_cons_head (p : α → Bool) (a : α) (t : List α)
    (h : List.dropWhile p (a :: t) = a :: t) : p a = false := by
  by_cases hp : p a
  · rw [List.dropWhile_cons_of_pos hp] at h
    have hlen := congrArg List.length h
    have hle := (List.dropWhile_sublist (l := t) p).length_le
    simp at hlen
    omega
  · exact Bool.of_not_eq_true hp

theorem stripL_noLead (l : Str) :
    List.dropWhile Char.isWhitespace (stripL l) = stripL l := by
  unfold stripL
  have hAA : List.dropWhile Char.isWhitespace (List.dropWhile Char.isWhitespace l) =
      List.dropWhile Char.isWhitespace l := dropWhile_self _ l
  cases hAe : List.dropWhile Char.isWhitespace l with
  | nil => simp [hAe]
  | cons a t =>
    rw [hAe] at hAA
    have ha : a.isWhitespace = false := dropWhile_cons_head _ _ _ hAA
    rw [List.reverse_cons, dropWhile_append_last _ _ _ ha, List.reverse_append]
    simp [List.dropWhile, ha]

theorem stripL_stripL (l : Str) : stripL (stripL l) = stripL l := by
  have h1 : List.dropWhile Char.isWhitespace (stripL l) = stripL l := stripL_noLead l
  have hrev : (stripL l).reverse =
      List.dropWhile Char.isWhitespace (List.dropWhile Char.isWhitespace l).reverse := by
    simp [stripL]
  have h2 : List.dropWhile Char.isWhitespace (stripL l).reverse = (stripL l).reverse := by
    rw [hrev]
    exact dropWhile_self _ _
  calc stripL (stripL l)
      = ((List.dropWhile Char.isWhitespace (stripL l)).reverse.dropWhile
          Char.isWhitespace).reverse := rfl
    _ = ((stripL l).reverse.dropWhile Char.isWhitespace).reverse := by rw [h1]
    _ = ((stripL l).reverse).reverse := by rw [h2]
    _ = stripL l := List.reverse_reverse _

theorem stripL_lowerL (l : Str) : stripL (lowerL l) = lowerL (stripL l) := by
  unfold stripL lowerL
  rw [dropWhile_map _ _ lowerChar_isWhitespace, ← List.map_reverse,
    dropWhile_map _ _ lowerChar_isWhitespace, ← List.map_reverse]

theorem lowerL_lowerL (l : Str) : lowerL (lowerL l) = lowerL l := by
  unfold lowerL
  rw [List.map_map]
  exact List.map_congr_left fun c _ => lowerChar_idem c

theorem scanPatterns_exact (ratio : Str → Str → ℚ) (commandText : Str) (cmd : Command)
    (ps : List Str) (h : ps.any (fun p => containsSub commandText p) = true) :
    ∀ bestScore bestMatch,
      scanPatterns ratio commandText cmd ps bestScore bestMatch = .error cmd := by
  induction ps with
  | nil => simp at h
  | cons p rest ih =>
    intro bestScore bestMatch
    by_cases hp : containsSub commandText p = true
    · simp [scanPatterns, hp]
    · simp only [List.any_cons, Bool.or_eq_true] at h
      have hrest : rest.any (fun q => containsSub commandText q) = true := h.resolve_left hp
      simp only [scanPatterns, if_neg hp]
      split
      · exact ih hrest _ _
      · exact ih hrest _ _

theorem scanPatterns_noExact (ratio : Str → Str → ℚ) (commandText : Str) (cmd : Command)
    (ps : List Str) (h : ps.any (fun p => containsSub commandText p) = false) :
    ∀ bestScore bestMatch, ∃ s m,
      scanPatterns ratio commandText cmd ps bestScore bestMatch = .ok (s, m) := by
  induction ps with
  | nil =>
    intro bestScore bestMatch
    exact ⟨bestScore, bestMatch, rfl⟩
  | cons p rest ih =>
    intro bestScore bestMatch
    simp only [List.any_cons, Bool.or_eq_false_iff] at h
    have hp : ¬ (containsSub commandText p = true) := by simp [h.1]
    simp only [scanPatterns, if_neg hp]
    split
    · exact ih h.2 _ _
    · exact ih h.2 _ _

theorem scanCommands_firstExact (ratio : Str → Str → ℚ) (commandText : Str)
    (commands : List Command) (cmd : Command)
    (h : firstExact commandText commands = some cmd) :
    ∀ bestScore bestMatch,
      scanCommands ratio commandText commands bestScore bestMatch = some cmd := by
  induction commands with
  | nil => simp [firstExact] at h
  | cons c rest ih =>
    intro bestScore bestMatch
    by_cases hc : c.patterns.any (fun p => containsSub commandText p) = true
    · have hcc : c = cmd := by
        simp [firstExact, hc] at h
        exact h
      subst hcc
      simp [scanCommands, scanPatterns_exact ratio commandText c c.patterns hc]
    · have hrest : firstExact commandText rest = some cmd := by
        simpa [firstExact, Bool.of_not_eq_true hc] using h
      obtain ⟨s, m, hok⟩ :=
        scanPatterns_noExact ratio commandText c c.patterns (Bool.of_not_eq_true hc)
          bestScore bestMatch
      simp [scanCommands, hok, ih hrest]

/-- Claim C1: for every utterance whose (normalized) text contains some
registered pattern as a literal substring, `_match_command` returns the
command owning the first such pattern in registration/iteration order,
short-circuiting before any fuzzy scoring: the result is the same for every
similarity function `ratio`, so the exact match wins even when another
command would score higher under fuzzy comparison.  (The source returns the
command itself; the score 1.0 of the spec's `MatchResult` corresponds to
this exact-substring path.) -/
theorem exact_substring_wins (ratio : Str → Str → ℚ) (commands : List Command)
    (commandText : Str) (cmd : Command)
    (h : firstExact commandText commands = some cmd) :
    matchCommand ratio commands commandText = some cmd :=
  scanCommands_firstExact ratio commandText commands cmd h 0 none

/-- Witness for C1 at a concrete input: the text "please open chrome now"
contains the pattern "open chrome" of the first registered command, and the
matcher returns that command even under a similarity function that scores
every comparison 1 (maximal fuzzy score for every other command). -/
theorem exact_substring_wins_witness :
    firstExact (str "please open chrome now") (registerCommands trivialSkills) =
      some chromeCommand ∧
    matchCommand ratioOne (registerCommands trivialSkills) (str "please open chrome now") =
      some chromeCommand :=
  ⟨rfl, exact_substring_wins ratioOne (registerCommands trivialSkills)
    (str "please open chrome now") chromeCommand rfl⟩

theorem scanPatterns_belowThreshold (ratio : Str → Str → ℚ) (commandText : Str)
    (cmd : Command) (ps : List Str)
    (hexact : ∀ p ∈ ps, containsSub commandText p = false)
    (hfuzzy : ∀ p ∈ ps, ratio commandText p < threshold) :
    ∀ bestScore bestMatch, ∃ s,
      scanPatterns ratio commandText cmd ps bestScore bestMatch = .ok (s, bestMatch) := by
  induction ps with
  | nil =>
    intro bestScore bestMatch
    exact ⟨bestScore, rfl⟩
  | cons p rest ih =>
    intro bestScore bestMatch
    have hp : ¬ (containsSub commandText p = true) := by
      simp [hexact p (List.mem_cons_self p rest)]
    have hs : ¬ (bestScore < ratio commandText p ∧ threshold ≤ ratio commandText p) := by
      intro hc
      exact absurd hc.2 (not_le.mpr (hfuzzy p (List.mem_cons_self p rest)))
    simp only [scanPatterns, if_neg hp, if_neg hs]
    exact ih (fun q hq => hexact q (List.mem_cons_of_mem p hq))
      (fun q hq => hfuzzy q (List.mem_cons_of_mem p hq)) bestScore bestMatch

theorem scanCommands_belowThreshold (ratio : Str → Str → ℚ) (commandText : Str)
    (commands : List Command)
    (hexact : ∀ cmd ∈ commands, ∀ p ∈ cmd.patterns, containsSub commandText p = false)
    (hfuzzy : ∀ cmd ∈ commands, ∀ p ∈ cmd.patterns, ratio commandText p < threshold) :
    ∀ bestScore, scanCommands ratio commandText commands bestScore none = none := by
  induction commands with
  | nil =>
    intro bestScore
    rfl
  | cons c rest ih =>
    intro bestScore
    obtain ⟨s, hok⟩ :=
      scanPatterns_belowThreshold ratio commandText c c.patterns
        (hexact c (List.mem_cons_self c rest)) (hfuzzy c (List.mem_cons_self c rest))
        bestScore none
    simp only [scanCommands, hok]
    exact ih (fun cmd hc => hexact cmd (List.mem_cons_of_mem c hc))
      (fun cmd hc => hfuzzy cmd (List.mem_cons_of_mem c hc)) s

/-- Claim C4: for every utterance such that no registered pattern is a
substring of the (normalized) text and every fuzzy similarity ratio between
the text and every pattern of every command is strictly below the threshold
0.6, `_match_command` returns no match. -/
theorem below_threshold_no_match (ratio : Str → Str → ℚ) (commands : List Command)
    (commandText : Str)
    (hexact : ∀ cmd ∈ commands, ∀ p ∈ cmd.patterns, containsSub commandText p = false)
    (hfuzzy : ∀ cmd ∈ commands, ∀ p ∈ cmd.patterns, ratio commandText p < threshold) :
    matchCommand ratio commands commandText = none :=
  scanCommands_belowThreshold ratio commandText commands hexact hfuzzy 0

/-- Witness for C4 at a concrete input: under a similarity function that
scores every comparison 1/2 < 0.6, the text "xyzzy plugh" (which contains no
registered pattern) yields no match against the full registry. -/
theorem below_threshold_no_match_witness :
    (∀ cmd ∈ registerCommands trivialSkills, ∀ p ∈ cmd.patterns,
        containsSub (str "xyzzy plugh") p = false) ∧
    (∀ cmd ∈ registerCommands trivialSkills, ∀ p ∈ cmd.patterns,
        ratioHalf (str "xyzzy plugh") p < threshold) ∧
    matchCommand ratioHalf (registerCommands trivialSkills) (str "xyzzy plugh") = none := by
  have hfuzzy : ∀ cmd ∈ registerCommands trivialSkills, ∀ p ∈ cmd.patterns,
      ratioHalf (str "xyzzy plugh") p < threshold := by
    intro cmd _ p _
    norm_num [ratioHalf, threshold]
  refine ⟨by decide, hfuzzy, ?_⟩
  exact below_threshold_no_match ratioHalf (registerCommands trivialSkills)
    (str "xyzzy plugh") (by decide) hfuzzy

theorem process_eq_of_error (ratio : Str → Str → ℚ) (commands : List Command)
    (st : ProcessorState) (commandText : Str) (cmd : Command)
    (hne : ¬ (commandText = []))
    (hm : matchCommand ratio commands (stripL (lowerL commandText)) = some cmd)
    (hh : cmd.handler (if cmd.requiresParams then some (stripL (lowerL commandText)) else none)
        = .error ()) :
    process ratio commands st commandText =
      (false,
        { st with stats :=
            { st.stats with
              totalProcessed := st.stats.totalProcessed + 1,
              failed := st.stats.failed + 1 } }) := by
  simp only [process, if_neg hne, hm, hh]

/-- Claim C3: for every (non-empty) input text and every matched command
whose handler raises when invoked, `process` catches the exception (it
returns a value rather than propagating — the model is total), returns
false, and increments the failed counter exactly once for that call. -/
theorem handler_throw_returns_false (ratio : Str → Str → ℚ) (commands : List Command)
    (st : ProcessorState) (commandText : Str) (cmd : Command)
    (hne : ¬ (commandText = []))
    (hm : matchCommand ratio commands (stripL (lowerL commandText)) = some cmd)
    (hh : cmd.handler (if cmd.requiresParams then some (stripL (lowerL commandText)) else none)
        = .error ()) :
    (process ratio commands st commandText).1 = false ∧
    (process ratio commands st commandText).2.stats.failed = st.stats.failed + 1 := by
  rw [process_eq_of_error ratio commands st commandText cmd hne hm hh]
  exact ⟨rfl, rfl⟩

/-- Witness for C3 at a concrete input: a registered "open chrome" command
whose handler always raises; `process "open chrome"` returns false and bumps
the failed counter from 0 to 1. -/
theorem handler_throw_returns_false_witness :
    ¬ ((str "open chrome") = []) ∧
    matchCommand ratioZero [throwingChromeCommand] (stripL (lowerL (str "open chrome")))
      = some throwingChromeCommand ∧
    (process ratioZero [throwingChromeCommand] initialProcessorState (str "open chrome")).1
      = false ∧
    (process ratioZero [throwingChromeCommand] initialProcessorState
        (str "open chrome")).2.stats.failed
      = initialProcessorState.stats.failed + 1 := by
  refine ⟨by decide, rfl, ?_⟩
  exact handler_throw_returns_false ratioZero [throwingChromeCommand] initialProcessorState
    (str "open chrome") throwingChromeCommand (by decide) rfl rfl

/-- Claim C10: when a matched command's handler raises during `process`, only
the `total_processed` and `failed` counters change; the per-category
counters, the command history, the `last_command` field and the `successful`
counter are exactly as before the call. -/
theorem handler_throw_frame (ratio : Str → Str → ℚ) (commands : List Command)
    (st : ProcessorState) (commandText : Str) (cmd : Command)
    (hne : ¬ (commandText = []))
    (hm : matchCommand ratio commands (stripL (lowerL commandText)) = some cmd)
    (hh : cmd.handler (if cmd.requiresParams then some (stripL (lowerL commandText)) else none)
        = .error ()) :
    (process ratio commands st commandText).2.stats.byCategory = st.stats.byCategory ∧
    (process ratio commands st commandText).2.commandHistory = st.commandHistory ∧
    (process ratio commands st commandText).2.lastCommand = st.lastCommand ∧
    (process ratio commands st commandText).2.stats.successful = st.stats.successful ∧
    (process ratio commands st commandText).2.stats.totalProcessed
      = st.stats.totalProcessed + 1 ∧
    (process ratio commands st commandText).2.stats.failed = st.stats.failed + 1 := by
  rw [process_eq_of_error ratio commands st commandText cmd hne hm hh]
  exact ⟨rfl, rfl, rfl, rfl, rfl, rfl⟩

/-- Witness for C10 at a concrete input: a registered "volume up" command
whose handler always raises, starting from a state with non-trivial history
and category counts; everything except `total_processed` and `failed` is
left untouched. -/
theorem handler_throw_frame_witness :
    (process ratioZero [throwingVolumeCommand]
        { stats := { totalProcessed := 3, successful := 2, failed := 1,
                     byCategory := [(str "apps", 2)] },
          commandHistory := [⟨str "open chrome", str "apps", true⟩],
          lastCommand := some chromeCommand }
        (str "volume up")).2.stats.byCategory = [(str "apps", 2)] ∧
    (process ratioZero [throwingVolumeCommand]
        { stats := { totalProcessed := 3, successful := 2, failed := 1,
                     byCategory := [(str "apps", 2)] },
          commandHistory := [⟨str "open chrome", str "apps", true⟩],
          lastCommand := some chromeCommand }
        (str "volume up")).2.commandHistory = [⟨str "open chrome", str "apps", true⟩] ∧
    (process ratioZero [throwingVolumeCommand]
        { stats := { totalProcessed := 3, successful := 2, failed := 1,
                     byCategory := [(str "apps", 2)] },
          commandHistory := [⟨str "open chrome", str "apps", true⟩],
          lastCommand := some chromeCommand }
        (str "volume up")).2.lastCommand = some chromeCommand ∧
    (process ratioZero [throwingVolumeCommand]
        { stats := { totalProcessed := 3, successful := 2, failed := 1,
                     byCategory := [(str "apps", 2)] },
          commandHistory := [⟨str "open chrome", str "apps", true⟩],
          lastCommand := some chromeCommand }
        (str "volume up")).2.stats.successful = 2 ∧
    (process ratioZero [throwingVolumeCommand]
        { stats := { totalProcessed := 3, successful := 2, failed := 1,
                     byCategory := [(str "apps", 2)] },
          commandHistory := [⟨str "open chrome", str "apps", true⟩],
          lastCommand := some chromeCommand }
        (str "volume up")).2.stats.totalProcessed = 3 + 1 ∧
    (process ratioZero [throwingVolumeCommand]
        { stats := { totalProcessed := 3, successful := 2, failed := 1,
                     byCategory := [(str "apps", 2)] },
          commandHistory := [⟨str "open chrome", str "apps", true⟩],
          lastCommand := some chromeCommand }
        (str "volume up")).2.stats.failed = 1 + 1 :=
  handler_throw_frame ratioZero [throwingVolumeCommand] _ (str "volume up")
    throwingVolumeCommand (by decide) rfl rfl

theorem process_eq_of_none (ratio : Str → Str → ℚ) (commands : List Command)
    (st : ProcessorState) (commandText : Str)
    (hne : ¬ (commandText = []))
    (hm : matchCommand ratio commands (stripL (lowerL commandText)) = none) :
    process ratio commands st commandText =
      (false,
        { st with stats :=
            { st.stats with
              totalProcessed := st.stats.totalProcessed + 1,
              failed := st.stats.failed + 1 } }) := by
  simp only [process, if_neg hne, hm]

theorem process_eq_of_ok (ratio : Str → Str → ℚ) (commands : List Command)
    (st : ProcessorState) (commandText : Str) (cmd : Command)
    (hne : ¬ (commandText = []))
    (hm : matchCommand ratio commands (stripL (lowerL commandText)) = some cmd)
    (hh : cmd.handler (if cmd.requiresParams then some (stripL (lowerL commandText)) else none)
        = .ok ()) :
    process ratio commands st commandText =
      (true,
        { stats :=
            { totalProcessed := st.stats.totalProcessed + 1,
              successful := st.stats.successful + 1,
              failed := st.stats.failed,
              byCategory := bumpCategory st.stats.byCategory cmd.category },
          commandHistory := st.commandHistory ++ [⟨commandText, cmd.category, true⟩],
          lastCommand := some cmd }) := by
  simp only [process, if_neg hne, hm, hh]

theorem process_step_inv (ratio : Str → Str → ℚ) (commands : List Command)
    (st : ProcessorState) (commandText : Str)
    (h : st.stats.successful + st.stats.failed = st.stats.totalProcessed) :
    (process ratio commands st commandText).2.stats.successful +
      (process ratio commands st commandText).2.stats.failed =
      (process ratio commands st commandText).2.stats.totalProcessed := by
  by_cases he : commandText = ([] : Str)
  · simp only [process, if_pos he]
    exact h
  · cases hm : matchCommand ratio commands (stripL (lowerL commandText)) with
    | none =>
      rw [process_eq_of_none ratio commands st commandText he hm]
      dsimp only
      omega
    | some cmd =>
      cases hh : cmd.handler
          (if cmd.requiresParams then some (stripL (lowerL commandText)) else none) with
      | ok u =>
        cases u
        rw [process_eq_of_ok ratio commands st commandText cmd he hm hh]
        dsimp only
        omega
      | error e =>
        cases e
        rw [process_eq_of_error ratio commands st commandText cmd he hm hh]
        dsimp only
        omega

theorem processSeq_inv (ratio : Str → Str → ℚ)
    (steps : List (List Command × Str)) :
    ∀ st : ProcessorState,
      st.stats.successful + st.stats.failed = st.stats.totalProcessed →
      (processSeq ratio st steps).stats.successful +
        (processSeq ratio st steps).stats.failed =
        (processSeq ratio st steps).stats.totalProcessed := by
  induction steps with
  | nil =>
    intro st h
    exact h
  | cons step rest ih =>
    intro st h
    exact ih _ (process_step_inv ratio step.1 st step.2 h)

/-- Claim C2: after any finite sequence of `process` calls, with arbitrary
input texts and arbitrary handler behaviour from call to call (including
handlers that throw), the statistics satisfy
`successful + failed = total_processed`. -/
theorem dispatcher_stats_invariant (ratio : Str → Str → ℚ)
    (steps : List (List Command × Str)) :
    (processSeq ratio initialProcessorState steps).stats.successful +
      (processSeq ratio initialProcessorState steps).stats.failed =
      (processSeq ratio initialProcessorState steps).stats.totalProcessed :=
  processSeq_inv ratio steps initialProcessorState rfl

/-- Counterexample to claim C5 as stated: calling `process` with the empty
input text returns false and attempts no match, but it does not increment
the failure counter (nor `total_processed`): the source returns before any
counter is touched, so the failed counter stays 0 instead of becoming 1. -/
theorem process_empty_no_failure_count :
    (process ratioZero (registerCommands trivialSkills) initialProcessorState (str "")).1
      = false ∧
    ¬ ((process ratioZero (registerCommands trivialSkills) initialProcessorState
          (str "")).2.stats.failed
        = initialProcessorState.stats.failed + 1) := by
  exact ⟨rfl, by decide⟩

/-- Claim C5 as amended: when `process` is called with empty input text, it
returns false, no command matching is attempted, and the processor state —
in particular every counter, including the failure counter — is left
completely unchanged (the result is independent of the registered commands
and of the similarity function). -/
theorem process_empty_unchanged (ratio : Str → Str → ℚ) (commands : List Command)
    (st : ProcessorState) :
    process ratio commands st (str "") = (false, st) := rfl

/-- Counterexample to claim C9 as stated: for absent input the normalizer
returns absent (`None`) — as `tests/test_helpers.py` also asserts — not the
empty string the claim's "absent/empty input yields empty output" requires. -/
theorem clean_query_none_not_empty :
    cleanQuery none = none ∧ ¬ (cleanQuery none = some []) :=
  ⟨rfl, by decide⟩

/-- Claim C9 as amended: the normalizer is total by construction (the source
wraps the body in a catch-all `try/except`), it is idempotent, empty input
yields empty output, and absent input yields absent (`None`) output. -/
theorem clean_query_amended :
    (∀ q, cleanQuery (cleanQuery q) = cleanQuery q) ∧
    cleanQuery (some []) = some [] ∧
    cleanQuery none = none := by
  refine ⟨?_, rfl, rfl⟩
  intro q
  cases q with
  | none => rfl
  | some s =>
    simp only [cleanQuery]
    rw [stripL_lowerL, stripL_stripL, lowerL_lowerL]

/-- Claim C7: for every utterance received while the session is in the
Listening state, if the utterance contains any exit keyword ("goodbye",
"sleep", "standby", "deactivate", "stop listening") case-insensitively as a
substring, the `handle_commands` step never invokes the matcher/dispatcher
(`process`) for that utterance — the flag is false and the processor state
is untouched — and the session transitions to Idle with `active = false`. -/
theorem exit_phrase_short_circuits (ratio : Str → Str → ℚ) (commands : List Command)
    (ss : SessionState) (command : Str)
    (_hstate : ss.state = AssistantState.listening)
    (hexit : ∃ keyword ∈ exitKeywords, containsSub (lowerL command) keyword = true) :
    handleCommandsStep ratio commands ss command =
      (false, { ss with active := false, state := .idle }) := by
  have hc : checkExitCommands command = true := by
    obtain ⟨k, hk, hks⟩ := hexit
    exact List.any_eq_true.mpr ⟨k, hk, hks⟩
  unfold handleCommandsStep
  rw [if_pos hc]

/-- Witness for C7 at a concrete input: the utterance "hey matrix goodbye"
received in the Listening state contains the exit keyword "goodbye"; the
step returns without invoking `process` and the session becomes Idle and
inactive, with the processor state untouched. -/
theorem exit_phrase_short_circuits_witness :
    (SessionState.mk .listening true 0 initialProcessorState).state
      = AssistantState.listening ∧
    (∃ keyword ∈ exitKeywords,
        containsSub (lowerL (str "hey matrix goodbye")) keyword = true) ∧
    handleCommandsStep ratioZero (registerCommands trivialSkills)
        (SessionState.mk .listening true 0 initialProcessorState)
        (str "hey matrix goodbye") =
      (false, SessionState.mk .idle false 0 initialProcessorState) := by
  refine ⟨rfl, ⟨str "goodbye", by decide, by decide⟩, ?_⟩
  exact exit_phrase_short_circuits ratioZero (registerCommands trivialSkills)
    (SessionState.mk .listening true 0 initialProcessorState)
    (str "hey matrix goodbye") rfl ⟨str "goodbye", by decide, by decide⟩

theorem handleDetection_true_fields (st : ListenerState) (t conf : ℚ)
    (st1 : ListenerState) (h : handleDetection st t conf = (true, st1)) :
    st1.lastDetectionTime = t ∧ st1.wakeWordDetections = st.wakeWordDetections + 1 := by
  unfold handleDetection at h
  split at h
  · simp at h
  · rw [Prod.mk.injEq] at h
    obtain ⟨-, h2⟩ := h
    subst h2
    exact ⟨rfl, rfl⟩

theorem detectWakeWord_true_fields (ratio : Str → Str → ℚ) (cfg : WakeConfig)
    (wakeWord : Str) (altWords : List Str) (st : ListenerState) (t : ℚ) (text : Str)
    (st1 : ListenerState)
    (h : detectWakeWord ratio cfg wakeWord altWords st t text = (true, st1)) :
    st1.lastDetectionTime = t ∧ st1.wakeWordDetections = st.wakeWordDetections + 1 := by
  simp only [detectWakeWord] at h
  by_cases he : text = ([] : Str)
  · rw [if_pos he] at h
    simp at h
  · rw [if_neg he] at h
    by_cases hx : exactMatch wakeWord altWords (stripL (lowerL text)) = true
    · rw [if_pos hx] at h
      exact handleDetection_true_fields
        { st with totalPhrasesHeard := st.totalPhrasesHeard + 1 } t 1 st1 h
    · rw [if_neg hx] at h
      by_cases hf : cfg.useFuzzyMatching = true
      · rw [if_pos hf] at h
        by_cases hs : cfg.sensitivity ≤ fuzzyMatch ratio wakeWord altWords (stripL (lowerL text))
        · rw [if_pos hs] at h
          exact handleDetection_true_fields
            { st with totalPhrasesHeard := st.totalPhrasesHeard + 1 } t _ st1 h
        · rw [if_neg hs] at h
          simp at h
      · rw [if_neg hf] at h
        simp at h

/-- Claim C6: for every pair of wake-word detection attempts that would each
individually pass the match logic, if the second occurs strictly less than
2.0 seconds after the first confirmed detection, the second is suppressed
(`detect_wake_word` returns not-matched) and the detection counter is
incremented only once: after the pair it is exactly one more than before the
first detection. -/
theorem wake_word_debounce (ratio : Str → Str → ℚ) (cfg : WakeConfig)
    (wakeWord : Str) (altWords : List Str) (st : ListenerState)
    (t1 t2 : ℚ) (text1 text2 : Str) (st1 : ListenerState)
    (h1 : detectWakeWord ratio cfg wakeWord altWords st t1 text1 = (true, st1))
    (_h2 : wouldMatch ratio cfg wakeWord altWords text2 = true)
    (hlt : t2 - t1 < 2) :
    (detectWakeWord ratio cfg wakeWord altWords st1 t2 text2).1 = false ∧
    (detectWakeWord ratio cfg wakeWord altWords st1 t2 text2).2.wakeWordDetections =
      st.wakeWordDetections + 1 := by
  obtain ⟨hlast, hdet⟩ :=
    detectWakeWord_true_fields ratio cfg wakeWord altWords st t1 text1 st1 h1
  have hdeb : ∀ stx : ListenerState, stx.lastDetectionTime = t1 → ∀ conf,
      handleDetection stx t2 conf = (false, stx) := by
    intro stx hst conf
    unfold handleDetection
    rw [if_pos]
    rw [hst]
    exact hlt
  simp only [detectWakeWord]
  by_cases he : text2 = ([] : Str)
  · rw [if_pos he]
    exact ⟨rfl, hdet⟩
  · rw [if_neg he]
    by_cases hx : exactMatch wakeWord altWords (stripL (lowerL text2)) = true
    · rw [if_pos hx,
        hdeb { st1 with totalPhrasesHeard := st1.totalPhrasesHeard + 1 } hlast 1]
      exact ⟨rfl, hdet⟩
    · rw [if_neg hx]
      by_cases hf : cfg.useFuzzyMatching = true
      · rw [if_pos hf]
        by_cases hs : cfg.sensitivity ≤ fuzzyMatch ratio wakeWord altWords
            (stripL (lowerL text2))
        · rw [if_pos hs,
            hdeb { st1 with totalPhrasesHeard := st1.totalPhrasesHeard + 1 } hlast _]
          exact ⟨rfl, hdet⟩
        · rw [if_neg hs]
          exact ⟨rfl, hdet⟩
      · rw [if_neg hf]
        exact ⟨rfl, hdet⟩

/-- Witness for C6 at a concrete input: with the default configuration, two
attempts on "hey matrix" at times 10 and 11 (both passing the match logic —
the wake phrase is an exact substring) yield one confirmed detection: the
second is suppressed and the counter ends at 1. -/
theorem wake_word_debounce_witness :
    wouldMatch ratioZero defaultWakeConfig (str "hey matrix") defaultAltWords
        (str "hey matrix") = true ∧
    (11 : ℚ) - 10 < 2 ∧
    ((detectWakeWord ratioZero defaultWakeConfig (str "hey matrix") defaultAltWords
        (detectWakeWord ratioZero defaultWakeConfig (str "hey matrix") defaultAltWords
          initialListenerState 10 (str "hey matrix")).2
        11 (str "hey matrix")).1 = false ∧
      (detectWakeWord ratioZero defaultWakeConfig (str "hey matrix") defaultAltWords
        (detectWakeWord ratioZero defaultWakeConfig (str "hey matrix") defaultAltWords
          initialListenerState 10 (str "hey matrix")).2
        11 (str "hey matrix")).2.wakeWordDetections =
        initialListenerState.wakeWordDetections + 1) := by
  have he1 : (detectWakeWord ratioZero defaultWakeConfig (str "hey matrix") defaultAltWords
      initialListenerState 10 (str "hey matrix")).1 = true := by
    simp only [detectWakeWord]
    rw [if_neg (by decide : ¬ (str "hey matrix" = ([] : Str)))]
    rw [if_pos (by decide : exactMatch (str "hey matrix") defaultAltWords
      (stripL (lowerL (str "hey matrix"))) = true)]
    unfold handleDetection
    rw [if_neg]
    norm_num [initialListenerState]
  have h1 : detectWakeWord ratioZero defaultWakeConfig (str "hey matrix") defaultAltWords
      initialListenerState 10 (str "hey matrix") =
      (true, (detectWakeWord ratioZero defaultWakeConfig (str "hey matrix") defaultAltWords
        initialListenerState 10 (str "hey matrix")).2) := by
    rw [← he1]
  refine ⟨by decide, by norm_num, ?_⟩
  exact wake_word_debounce ratioZero defaultWakeConfig (str "hey matrix") defaultAltWords
    initialListenerState 10 11 (str "hey matrix") (str "hey matrix") _ h1 (by decide)
    (by norm_num)

/-- Counterexample to claim C8 as stated: on the utterance
"matrix hey matrix" the primary phrase "hey matrix" matches (at position 7)
and leaves no trailing text, so the claim requires the trimmed original
utterance to be returned unchanged; instead `_extract_command` falls through
to the alternative phrase "matrix" (at position 0) and returns
"hey matrix". -/
theorem extract_command_cex :
    findSubstr (lowerL (str "matrix hey matrix")) (str "hey matrix") = some 7 ∧
    stripL ((str "matrix hey matrix").drop (7 + (str "hey matrix").length)) = [] ∧
    stripL (str "matrix hey matrix") = str "matrix hey matrix" ∧
    extractCommand (str "hey matrix") defaultAltWords (str "matrix hey matrix")
      = str "hey matrix" ∧
    ¬ (extractCommand (str "hey matrix") defaultAltWords (str "matrix hey matrix")
        = str "matrix hey matrix") := by
  refine ⟨by decide, by decide, by decide, by decide, by decide⟩

theorem extractLoop_all_empty (text textLower : Str) (ws : List Str)
    (h : ∀ w ∈ ws, ∀ pos, findSubstr textLower w = some pos →
        stripL (text.drop (pos + w.length)) = []) :
    extractLoop text textLower ws = stripL text := by
  induction ws with
  | nil => rfl
  | cons w rest ih =>
    have ihr : extractLoop text textLower rest = stripL text :=
      ih (fun w' hw' => h w' (List.mem_cons_of_mem w hw'))
    cases hf : findSubstr textLower w with
    | none =>
      simp only [extractLoop, hf]
      exact ihr
    | some pos =>
      simp only [extractLoop, hf]
      rw [if_pos (h w (List.mem_cons_self w rest) pos hf)]
      exact ihr

theorem extractLoop_found (text textLower : Str) (pre : List Str) (w : Str)
    (post : List Str)
    (hpre : ∀ w' ∈ pre, ∀ pos', findSubstr textLower w' = some pos' →
        stripL (text.drop (pos' + w'.length)) = [])
    (pos : Nat) (hw : findSubstr textLower w = some pos)
    (hne : ¬ (stripL (text.drop (pos + w.length)) = [])) :
    extractLoop text textLower (pre ++ w :: post)
      = stripL (text.drop (pos + w.length)) := by
  induction pre with
  | nil =>
    simp only [List.nil_append, extractLoop, hw]
    rw [if_neg hne]
  | cons p pre' ih =>
    have ihr := ih (fun w' hw' => hpre w' (List.mem_cons_of_mem p hw'))
    cases hf : findSubstr textLower p with
    | none =>
      simp only [List.cons_append, extractLoop, hf]
      exact ihr
    | some pos' =>
      simp only [List.cons_append, extractLoop, hf]
      rw [if_pos (hpre p (List.mem_cons_self p pre') pos' hf)]
      exact ihr

/-- Claim C8 as amended: `_extract_command` walks the wake phrases, the
primary phrase first and then the alternatives in registration order; for
the first phrase in that order that occurs in the lower-cased utterance AND
whose original-cased after-phrase substring (taken at the phrase's first
occurrence) is non-empty once trimmed, it returns that trimmed substring.
A matched phrase that leaves no trailing text does not end the search: the
loop falls through to the remaining phrases, and only when no phrase yields
a non-empty trimmed remainder is the trimmed original utterance returned
unchanged. -/
theorem extract_command_amended (wakeWord : Str) (altWords : List Str) (text : Str) :
    (∀ pre w post pos,
        wakeWord :: altWords = pre ++ w :: post →
        (∀ w' ∈ pre, ∀ pos', findSubstr (lowerL text) w' = some pos' →
            stripL (text.drop (pos' + w'.length)) = []) →
        findSubstr (lowerL text) w = some pos →
        ¬ (stripL (text.drop (pos + w.length)) = []) →
        extractCommand wakeWord altWords text = stripL (text.drop (pos + w.length))) ∧
    ((∀ w' ∈ wakeWord :: altWords, ∀ pos', findSubstr (lowerL text) w' = some pos' →
        stripL (text.drop (pos' + w'.length)) = []) →
      extractCommand wakeWord altWords text = stripL text) := by
  constructor
  · intro pre w post pos heq hpre hw hne
    unfold extractCommand
    rw [heq]
    exact extractLoop_found text (lowerL text) pre w post hpre pos hw hne
  · intro h
    exact extractLoop_all_empty text (lowerL text) (wakeWord :: altWords) h

/-- Witness for the amended C8 at a concrete input: on
"hey matrix open chrome" the primary phrase matches at position 0 with
non-empty remainder, and extraction returns "open chrome". -/
theorem extract_command_amended_witness :
    findSubstr (lowerL (str "hey matrix open chrome")) (str "hey matrix") = some 0 ∧
    ¬ (stripL ((str "hey matrix open chrome").drop
        (0 + (str "hey matrix").length)) = []) ∧
    extractCommand (str "hey matrix") defaultAltWords (str "hey matrix open chrome")
      = stripL ((str "hey matrix open chrome").drop (0 + (str "hey matrix").length)) := by
  refine ⟨by decide, by decide, ?_⟩
  exact (extract_command_amended (str "hey matrix") defaultAltWords
      (str "hey matrix open chrome")).1 [] (str "hey matrix") defaultAltWords 0 rfl
    (fun w' hw' => absurd hw' (List.not_mem_nil w')) (by decide) (by decide)
